import Mathlib

/-!
Verification of the Library Reconciliation & Recommendation Lifecycle Engine
(`src/apis/navidrome_api.py`, `src/playlist_monitor.py`).

The Python functions are shallowly embedded as executable Lean definitions on
`List Char` / `String`, mirroring the source line by line:

* `_normalize_for_match`  → `normList` / `normalize_for_match`
* `_search_song_in_navidrome` scoring and selection → `score`, `searchResult`
* `add_to_download_history` / `remove_from_download_history` → `addEntryList`,
  `addToHistory`, `removeFromList`
* `_check_song_protection` (SQLite path) → `checkSongProtectionDb`
* `process_api_cleanup` → `apiTracksToRemove`, `apiKeepIds`,
  `apiCleanupHistoryAfter`, `apiNewPlaylistIds`
* `process_debug_cleanup` (step 1) → `debugKeepInHistory`, `debugCleanupRemaining`
* `update_api_playlists` (per-playlist step) → `collectSongIds`,
  `syncSourcePlaylist`
* `playlist_monitor.mark_synced` / `_sync_playlist` → `markSynced`,
  `syncPlaylistRun`

Python regular-expression semantics (`re.sub` scanning left to right, `\s`,
`.` not matching a newline, greedy/lazy repetition) are embedded directly for
the three substitutions used by `_normalize_for_match`.
-/

/-! ## Character helpers (Python `str.lower`, `\s`, `.`) -/

/-- Python whitespace characters recognised by `\s`, `str.strip()` and
`str.split()` (ASCII part). -/
def pyWs (c : Char) : Bool :=
  c = ' ' || c = '\t' || c = '\n' || c = '\r' || c = '\x0b' || c = '\x0c'

/-- Python `str.lower()` on one character (ASCII part): uppercase letters are
shifted by 32, everything else is fixed. -/
def pyToLower (c : Char) : Char :=
  if 65 ≤ c.toNat ∧ c.toNat ≤ 90 then Char.ofNat (c.toNat + 32) else c

/-- `text.lower()` on the character list of a string. -/
def lowerList (l : List Char) : List Char := l.map pyToLower

/-- `str.strip()`: drop leading and trailing Python whitespace. -/
def stripList (l : List Char) : List Char :=
  ((l.dropWhile pyWs).reverse.dropWhile pyWs).reverse

/-- `t.rstrip('.')`: drop every trailing period. -/
def rstripDots (l : List Char) : List Char :=
  (l.reverse.dropWhile (fun c => c = '.')).reverse

/-! ## `re.sub(r'\s*(feat\.?|ft\.?|featuring|with)\s+.*', '', t)` -/

/-- One keyword alternative of the feat-clause pattern: `kw` is a literal
prefix of `l` and the character right after it is whitespace (the mandatory
`\s+`). -/
def kwCheck (kw : List Char) (l : List Char) : Bool :=
  kw.isPrefixOf l &&
    (match l.drop kw.length with
     | c :: _ => pyWs c
     | [] => false)

/-- The alternation `(feat\.?|ft\.?|featuring|with)` followed by `\s+` matches
at the head of `l`. -/
def featMatchAt (l : List Char) : Bool :=
  kwCheck ['f','e','a','t','.'] l || kwCheck ['f','e','a','t'] l ||
  kwCheck ['f','t','.'] l || kwCheck ['f','t'] l ||
  kwCheck ['f','e','a','t','u','r','i','n','g'] l ||
  kwCheck ['w','i','t','h'] l

/-- Number of characters consumed by the keyword alternative that the regex
engine picks (greedy optional dot, alternatives tried in order). -/
def featKwLen (l : List Char) : ℕ :=
  if kwCheck ['f','e','a','t','.'] l then 5
  else if kwCheck ['f','e','a','t'] l then 4
  else if kwCheck ['f','t','.'] l then 3
  else if kwCheck ['f','t'] l then 2
  else if kwCheck ['f','e','a','t','u','r','i','n','g'] l then 9
  else 4

/-- A match of the full pattern starts at the head of `l`: `\s*` consumes the
maximal whitespace run (keywords never start with whitespace), then a keyword
plus trailing whitespace must follow. -/
def featScanMatch (l : List Char) : Bool :=
  featMatchAt (l.dropWhile pyWs)

/-- Remainder of `l` after the match: the leading whitespace run, the keyword,
the greedy `\s+`, and the greedy `.*` (which stops at a newline) are all
consumed. -/
def featConsume (l : List Char) : List Char :=
  let r := l.dropWhile pyWs
  ((r.drop (featKwLen r)).dropWhile pyWs).dropWhile (fun c => ¬ c = '\n')

/-- Left-to-right scan of `re.sub` for the feat-clause pattern, with explicit
fuel (each step consumes at least one character, so `l.length` fuel always
suffices). -/
def featSubAux : ℕ → List Char → List Char
  | 0, l => l
  | _ + 1, [] => []
  | n + 1, c :: t =>
    if featScanMatch (c :: t) then featSubAux n (featConsume (c :: t))
    else c :: featSubAux n t

/-- `re.sub(r'\s*(feat\.?|ft\.?|featuring|with)\s+.*', '', t)`. -/
def featSub (l : List Char) : List Char := featSubAux l.length l

/-! ## `re.sub(r'\s*[\(\[].*?[\)\]]', '', t)` -/

/-- After an opening bracket, the lazy `.*?[\)\]]` part: consume up to and
including the first closing bracket, failing on a newline (`.` does not match
`\n`). Returns the remainder after the closer. -/
def closerSplit : List Char → Option (List Char)
  | [] => none
  | c :: t =>
    if c = ')' ∨ c = ']' then some t
    else if c = '\n' then none
    else closerSplit t

/-- A match of the parenthetical pattern starting at the head of `l`:
whitespace run, an opener `(`/`[`, then the lazy search for a closer.
Returns the remainder of `l` after the match when it exists. -/
def parenMatchAt (l : List Char) : Option (List Char) :=
  match l.dropWhile pyWs with
  | c :: t => if c = '(' ∨ c = '[' then closerSplit t else none
  | [] => none

/-- Left-to-right scan of `re.sub` for the parenthetical pattern, with fuel. -/
def parenSubAux : ℕ → List Char → List Char
  | 0, l => l
  | _ + 1, [] => []
  | n + 1, c :: t =>
    match parenMatchAt (c :: t) with
    | some rem => parenSubAux n rem
    | none => c :: parenSubAux n t

/-- `re.sub(r'\s*[\(\[].*?[\)\]]', '', t)`. -/
def parenSub (l : List Char) : List Char := parenSubAux l.length l

/-! ## `re.sub(r'\s+', ' ', t).strip()` -/

/-- `re.sub(r'\s+', ' ', t)`: every maximal whitespace run becomes one space.
The flag records whether the scan is inside a whitespace run. -/
def wsCollapseGo : Bool → List Char → List Char
  | _, [] => []
  | inWs, c :: t =>
    if pyWs c then
      if inWs then wsCollapseGo true t else ' ' :: wsCollapseGo true t
    else c :: wsCollapseGo false t

/-- Whitespace collapsing followed by `strip()`, the final normalizer stage. -/
def collapseStrip (l : List Char) : List Char :=
  stripList (wsCollapseGo false l)

/-! ## `NavidromeAPI._normalize_for_match` -/

/-- `_normalize_for_match` on a character list, statement by statement:
`t = text.lower().strip()`; `t = t.rstrip('.')`; the feat-clause `re.sub`;
the parenthetical `re.sub`; `re.sub(r'\s+', ' ', t).strip()`. -/
def normList (l : List Char) : List Char :=
  collapseStrip (parenSub (featSub (rstripDots (stripList (lowerList l)))))

/-- `_normalize_for_match` on strings. -/
def normalize_for_match (s : String) : String :=
  ⟨normList s.data⟩

example : normalize_for_match "  DJ Snake feat. Justin Bieber " = "dj snake" := by decide
example : normalize_for_match "Escapism." = "escapism" := by decide
example : normalize_for_match "Song (Radio Edit)" = "song" := by decide
example : normalize_for_match "ab.(x)" = "ab." := by decide
example : normalize_for_match "ab." = "ab" := by decide
example : normalize_for_match "a.." = "a" := by decide
example : normalize_for_match "x (a) y (b)" = "x y" := by decide

/-! ## `NavidromeAPI._search_song_in_navidrome`: scoring and selection -/

/-- A candidate song as returned by the Subsonic search (the fields the
scorer reads, via `song.get(..., '')`). -/
structure Song where
  id : String
  artist : String
  title : String
  album : String
deriving DecidableEq

/-- The query side of a matching call: `artist`, `title` and the optional
`album` parameter of `_search_song_in_navidrome`. -/
structure MatchQuery where
  artist : String
  title : String
  album : Option String
deriving DecidableEq

/-- Python substring containment `needle in hay`. -/
def listContains : List Char → List Char → Bool
  | [], needle => needle.isEmpty
  | c :: t, needle => needle.isPrefixOf (c :: t) || listContains t needle

/-- A separator of `re.split(r'[,&\s]+', ...)`. -/
def isSepChar (c : Char) : Bool := c = ',' || c = '&' || pyWs c

/-- `re.split(r'[,&\s]+', s)`: pieces between maximal separator runs,
including empty pieces at the boundaries (fuel-based; each step consumes at
least one separator). -/
def splitSepsAux : ℕ → List Char → List (List Char)
  | 0, l => [l]
  | n + 1, l =>
    let tok := l.takeWhile (fun c => ¬ isSepChar c)
    match l.dropWhile (fun c => ¬ isSepChar c) with
    | [] => [tok]
    | c :: rest => tok :: splitSepsAux n ((c :: rest).dropWhile isSepChar)

/-- `re.split(r'[,&\s]+', s)`. -/
def splitSeps (l : List Char) : List (List Char) :=
  splitSepsAux (l.length + 1) l

/-- `len(set(split a) & set(split b))`: the word-overlap count used for
multi-artist strings. -/
def wordOverlapCount (a b : List Char) : ℕ :=
  (((splitSeps a).dedup).filter (fun w => w ∈ splitSeps b)).length

/-- Title component of `_score`: +100 exact, +60 one-way containment. -/
def titleScore (normTitle sTitle : List Char) : ℤ :=
  if sTitle = normTitle then 100
  else if listContains sTitle normTitle || listContains normTitle sTitle then 60
  else 0

/-- Artist component of `_score`: +100 exact, +60 containment, else
+30 per shared word. -/
def artistScore (normArtist sArtist : List Char) : ℤ :=
  if sArtist = normArtist then 100
  else if listContains sArtist normArtist || listContains normArtist sArtist then 60
  else 30 * (wordOverlapCount normArtist sArtist : ℤ)

/-- Album component of `_score` when an album filter is active: +50 exact,
+25 partial, −200 when the candidate's album clearly differs. -/
def albumScore (normAlbum sAlbum : List Char) : ℤ :=
  if sAlbum = normAlbum then 50
  else if listContains sAlbum normAlbum || listContains normAlbum sAlbum then 25
  else -200

/-- `norm_album = self._normalize_for_match(album) if album else None`:
an absent or empty (falsy) album yields no album filter. -/
def normAlbumOf (album : Option String) : Option (List Char) :=
  match album with
  | none => none
  | some a => if a.data = [] then none else some (normList a.data)

/-- The `if norm_album:` guard plus the album branch of `_score`: a `None` or
empty normalized album contributes nothing. -/
def albumPart (normAlbum : Option (List Char)) (sAlbumRaw : List Char) : ℤ :=
  match normAlbum with
  | none => 0
  | some na => if na = [] then 0 else albumScore na (normList sAlbumRaw)

/-- `_score(song)`: title, artist and album components summed. -/
def score (q : MatchQuery) (s : Song) : ℤ :=
  titleScore (normList q.title.data) (normList s.title.data) +
  artistScore (normList q.artist.data) (normList s.artist.data) +
  albumPart (normAlbumOf q.album) s.album.data

/-- First element of the stable descending sort by score: the earliest
candidate attaining the maximum score. -/
def argmaxFirst (f : Song → ℤ) : List Song → Option Song
  | [] => none
  | c :: cs => some (cs.foldl (fun b s => if f s > f b then s else b) c)

/-- Candidate selection of `_search_song_in_navidrome`: pick the best-scoring
candidate, accept only if its score is at least 60. -/
def searchResult (q : MatchQuery) (cands : List Song) : Option Song :=
  match argmaxFirst (score q) cands with
  | none => none
  | some b => if score q b ≥ 60 then some b else none

example :
    score ⟨"DJ Snake feat. Justin Bieber", "Let Me Love You", none⟩
      ⟨"id9", "DJ Snake", "Let Me Love You", "Encore"⟩ = 200 := by decide

example :
    score ⟨"a", "t", some "x"⟩ ⟨"1", "a", "t", "y"⟩ = 0 := by decide

example :
    searchResult ⟨"a", "t", some "x"⟩ [⟨"1", "a", "t", "y"⟩] = none := by decide

/-! ## Character-level lemmas for the normalizer -/

/-- `Char.ofNat` round-trips on valid codepoints below the surrogate range. -/
theorem toNat_ofNat_valid (n : ℕ) (h : n < 55296) : (Char.ofNat n).toNat = n := by
  unfold Char.ofNat
  rw [dif_pos (Or.inl h)]
  simp [Char.ofNatAux, Char.toNat, UInt32.toNat, BitVec.ofNatLt]

/-- `pyToLower` either fixes its argument or produces a lowercase ASCII
letter. -/
theorem pyToLower_cases (c : Char) :
    pyToLower c = c ∨ (97 ≤ (pyToLower c).toNat ∧ (pyToLower c).toNat ≤ 122) := by
  unfold pyToLower
  by_cases h : 65 ≤ c.toNat ∧ c.toNat ≤ 90
  · right
    rw [if_pos h, toNat_ofNat_valid _ (by omega)]
    omega
  · left
    rw [if_neg h]

/-- `pyToLower` fixes any character that is not an uppercase ASCII letter. -/
theorem pyToLower_of_not_upper (c : Char) (h : ¬(65 ≤ c.toNat ∧ c.toNat ≤ 90)) :
    pyToLower c = c := by
  unfold pyToLower
  rw [if_neg h]

/-- Lowercasing is idempotent. -/
theorem pyToLower_pyToLower (c : Char) : pyToLower (pyToLower c) = pyToLower c := by
  rcases pyToLower_cases c with h | h
  · rw [h]; exact h
  · exact pyToLower_of_not_upper _ (by omega)

/-- Characters with distinct codepoints are distinct. -/
theorem toNat_lt_ne {c d : Char} (h : d.toNat < c.toNat) : c ≠ d :=
  fun e => Nat.ne_of_gt h (congrArg Char.toNat e)

/-- Lowercase ASCII letters are not Python whitespace. -/
theorem pyWs_false_of_lower_letter (c : Char) (h : 97 ≤ c.toNat) : pyWs c = false := by
  have h1 : c ≠ ' ' := toNat_lt_ne (lt_of_lt_of_le (show (' ' : Char).toNat < 97 from by decide) h)
  have h2 : c ≠ '\t' := toNat_lt_ne (lt_of_lt_of_le (show ('\t' : Char).toNat < 97 from by decide) h)
  have h3 : c ≠ '\n' := toNat_lt_ne (lt_of_lt_of_le (show ('\n' : Char).toNat < 97 from by decide) h)
  have h4 : c ≠ '\r' := toNat_lt_ne (lt_of_lt_of_le (show ('\r' : Char).toNat < 97 from by decide) h)
  have h5 : c ≠ '\x0b' := toNat_lt_ne (lt_of_lt_of_le (show ('\x0b' : Char).toNat < 97 from by decide) h)
  have h6 : c ≠ '\x0c' := toNat_lt_ne (lt_of_lt_of_le (show ('\x0c' : Char).toNat < 97 from by decide) h)
  simp [pyWs, h1, h2, h3, h4, h5, h6]

/-- `dropWhile` is the identity when the predicate fails on every element. -/
theorem dropWhile_false {α : Type} (p : α → Bool) (l : List α)
    (h : ∀ c ∈ l, p c = false) : l.dropWhile p = l := by
  cases l with
  | nil => rfl
  | cons c t => rw [List.dropWhile_cons, h c (List.mem_cons_self c t)]; simp

/-- `stripList` is the identity on whitespace-free lists. -/
theorem stripList_id (l : List Char) (h : ∀ c ∈ l, pyWs c = false) :
    stripList l = l := by
  unfold stripList
  rw [dropWhile_false _ _ h, dropWhile_false, List.reverse_reverse]
  intro c hc
  exact h c (List.mem_reverse.1 hc)

/-- `rstripDots` is the identity on period-free lists. -/
theorem rstripDots_id (l : List Char) (h : ∀ c ∈ l, c ≠ '.') :
    rstripDots l = l := by
  unfold rstripDots
  rw [dropWhile_false, List.reverse_reverse]
  intro c hc
  exact decide_eq_false (h c (List.mem_reverse.1 hc))

/-- Whitespace collapsing is the identity on whitespace-free lists. -/
theorem wsCollapseGo_id (b : Bool) (l : List Char) (h : ∀ c ∈ l, pyWs c = false) :
    wsCollapseGo b l = l := by
  induction l generalizing b with
  | nil => rfl
  | cons c t ih =>
    have hc := h c (List.mem_cons_self c t)
    unfold wsCollapseGo
    rw [hc]
    simp only [Bool.false_eq_true, if_false]
    rw [ih false (fun x hx => h x (List.mem_cons_of_mem c hx))]

/-- No keyword alternative can match inside a whitespace-free list (the
mandatory `\s+` has nothing to match). -/
theorem kwCheck_false_of_noWs (kw : List Char) (l : List Char)
    (h : ∀ c ∈ l, pyWs c = false) : kwCheck kw l = false := by
  unfold kwCheck
  cases hd : l.drop kw.length with
  | nil => simp
  | cons c t =>
    have hc : c ∈ l := List.mem_of_mem_drop (hd ▸ List.mem_cons_self c t)
    simp [h c hc]

/-- The feat-clause pattern cannot match a whitespace-free list. -/
theorem featScanMatch_false (l : List Char) (h : ∀ c ∈ l, pyWs c = false) :
    featScanMatch l = false := by
  unfold featScanMatch featMatchAt
  rw [dropWhile_false _ _ h]
  simp [kwCheck_false_of_noWs _ _ h]

/-- The feat-clause substitution is the identity on whitespace-free lists. -/
theorem featSubAux_id (n : ℕ) : ∀ l : List Char, (∀ c ∈ l, pyWs c = false) →
    featSubAux n l = l := by
  induction n with
  | zero => intro l _; rfl
  | succ n ih =>
    intro l h
    cases l with
    | nil => rfl
    | cons c t =>
      unfold featSubAux
      rw [featScanMatch_false _ h]
      simp only [Bool.false_eq_true, if_false]
      rw [ih t (fun x hx => h x (List.mem_cons_of_mem c hx))]

/-- The parenthetical pattern cannot match a list without opening brackets
(whitespace-freeness settles the `\s*` prefix). -/
theorem parenMatchAt_none (l : List Char)
    (hw : ∀ c ∈ l, pyWs c = false) (h : ∀ c ∈ l, c ≠ '(' ∧ c ≠ '[') :
    parenMatchAt l = none := by
  unfold parenMatchAt
  rw [dropWhile_false _ _ hw]
  cases l with
  | nil => rfl
  | cons c t =>
    have hc := h c (List.mem_cons_self c t)
    simp [hc.1, hc.2]

/-- The parenthetical substitution is the identity on whitespace-free,
opener-free lists. -/
theorem parenSubAux_id (n : ℕ) : ∀ l : List Char,
    (∀ c ∈ l, pyWs c = false) → (∀ c ∈ l, c ≠ '(' ∧ c ≠ '[') →
    parenSubAux n l = l := by
  induction n with
  | zero => intro l _ _; rfl
  | succ n ih =>
    intro l hw h
    cases l with
    | nil => rfl
    | cons c t =>
      unfold parenSubAux
      rw [parenMatchAt_none _ hw h]
      rw [ih t (fun x hx => hw x (List.mem_cons_of_mem c hx))
          (fun x hx => h x (List.mem_cons_of_mem c hx))]

/-- A plain character: no whitespace, period or opening bracket.  On strings
made only of such characters every normalizer stage after lowercasing is the
identity. -/
def PlainChar (c : Char) : Prop :=
  pyWs c = false ∧ c ≠ '.' ∧ c ≠ '(' ∧ c ≠ '['

instance (c : Char) : Decidable (PlainChar c) := by
  unfold PlainChar
  infer_instance

/-- Lowercasing preserves plainness. -/
theorem plain_pyToLower (c : Char) (h : PlainChar c) : PlainChar (pyToLower c) := by
  rcases pyToLower_cases c with he | hr
  · rw [he]; exact h
  · refine ⟨pyWs_false_of_lower_letter _ hr.1, ?_, ?_, ?_⟩
    · exact toNat_lt_ne (lt_of_lt_of_le (show ('.' : Char).toNat < 97 from by decide) hr.1)
    · exact toNat_lt_ne (lt_of_lt_of_le (show ('(' : Char).toNat < 97 from by decide) hr.1)
    · exact toNat_lt_ne (lt_of_lt_of_le (show ('[' : Char).toNat < 97 from by decide) hr.1)

/-- On plain strings, `_normalize_for_match` reduces to lowercasing. -/
theorem normList_eq_lower_of_plain (l : List Char) (h : ∀ c ∈ l, PlainChar c) :
    normList l = lowerList l := by
  have hl : ∀ c ∈ lowerList l, PlainChar c := by
    intro c hc
    obtain ⟨d, hd, he⟩ := List.mem_map.1 hc
    exact he ▸ plain_pyToLower d (h d hd)
  have hw : ∀ c ∈ lowerList l, pyWs c = false := fun c hc => (hl c hc).1
  unfold normList collapseStrip featSub parenSub
  rw [stripList_id _ hw, rstripDots_id _ (fun c hc => (hl c hc).2.1),
      featSubAux_id _ _ hw, parenSubAux_id _ _ hw (fun c hc => (hl c hc).2.2),
      wsCollapseGo_id _ _ hw, stripList_id _ hw]

/-! ## Claim C6: normalizer idempotence -/

/-- Claim C6 as stated is false: the parenthetical substitution can expose a
trailing period that a second application then strips.  On `"ab.(x)"` the
normalizer yields `"ab."`, but normalizing again yields `"ab"`. -/
theorem C6_normalize_not_idempotent :
    normalize_for_match (normalize_for_match "ab.(x)") ≠
      normalize_for_match "ab.(x)" ∧
    normalize_for_match "ab.(x)" = "ab." ∧
    normalize_for_match "ab." = "ab" := by
  refine ⟨?_, by decide, by decide⟩
  decide

/-- Claim C6 (amended): the normalizer is idempotent on strings all of whose
characters are plain — no whitespace, no period, no opening parenthesis or
bracket; in general a removal stage can expose a new trailing period or
clause, breaking idempotence. -/
theorem normList_normList_of_plain (l : List Char) (h : ∀ c ∈ l, PlainChar c) :
    normList (normList l) = normList l := by
  have h1 : normList l = lowerList l := normList_eq_lower_of_plain _ h
  have hl : ∀ c ∈ lowerList l, PlainChar c := by
    intro c hc
    obtain ⟨d, hd, he⟩ := List.mem_map.1 hc
    exact he ▸ plain_pyToLower d (h d hd)
  rw [h1, normList_eq_lower_of_plain _ hl]
  unfold lowerList
  rw [List.map_map]
  exact List.map_congr_left (fun a _ => pyToLower_pyToLower a)

/-- Unfolding equation for the `String` wrapper of the normalizer. -/
theorem normalize_for_match_def (s : String) :
    normalize_for_match s = ⟨normList s.data⟩ :=
  rfl

/-- Claim C6 (amended, continued): idempotence on plain strings, stated on
`String` like the claim. -/
theorem C6_normalize_idempotent_on_plain_strings (s : String)
    (h : ∀ c ∈ s.data, PlainChar c) :
    normalize_for_match (normalize_for_match s) = normalize_for_match s := by
  rw [normalize_for_match_def s, normalize_for_match_def]
  exact congrArg String.mk (normList_normList_of_plain s.data h)

/-- Witness: the amended idempotence theorem applies to `"MiXeD"`. -/
theorem C6_normalize_idempotent_witness :
    (∀ c ∈ "MiXeD".data, PlainChar c) ∧
    normalize_for_match (normalize_for_match "MiXeD") = normalize_for_match "MiXeD" :=
  ⟨by decide, C6_normalize_idempotent_on_plain_strings "MiXeD" (by decide)⟩

/-! ## Claim C7: the normalizer pipeline, stage by stage -/

/-- Spec-side stage: strip a SINGLE trailing period (the spec's and claim's
wording), unlike the code's `rstrip('.')`. -/
def rstripOneDot (l : List Char) : List Char :=
  match l.reverse with
  | '.' :: r => r.reverse
  | _ => l

/-- Spec-side stage: remove a trailing feat./ft./featuring/with clause — from
the first clause match through the end of the string. -/
def featTruncateSpec : List Char → List Char
  | [] => []
  | c :: t => if featScanMatch (c :: t) then [] else c :: featTruncateSpec t

/-- Spec-side stage: remove only the FIRST parenthetical or bracketed group
(the claim's wording), leaving the remainder untouched. -/
def removeFirstParen : List Char → List Char
  | [] => []
  | c :: t =>
    match parenMatchAt (c :: t) with
    | some rem => rem
    | none => c :: removeFirstParen t

/-- The pipeline exactly as claim C7 words it: lowercase; strip a single
trailing period; remove a trailing feat clause; remove the first
parenthetical; collapse internal whitespace; trim. -/
def normalizeSpecC7 (l : List Char) : List Char :=
  collapseStrip (removeFirstParen (featTruncateSpec (rstripOneDot (lowerList l))))

/-- The pipeline with the two corrections the code forces: an initial trim,
ALL trailing periods stripped, every feat clause removed (through the rest of
its line), and EVERY parenthetical group removed. -/
def normalizeSpecC7Amended (l : List Char) : List Char :=
  collapseStrip (parenSub (featSub (rstripDots (stripList (lowerList l)))))

/-- Claim C7 as stated is false: on `"a.."` the code strips both trailing
periods while the claimed pipeline strips only one, and on `"x (a) y (b)"`
the code removes both parenthetical groups while the claimed pipeline removes
only the first. -/
theorem C7_spec_pipeline_differs :
    normList "a..".data ≠ normalizeSpecC7 "a..".data ∧
    normList "x (a) y (b)".data ≠ normalizeSpecC7 "x (a) y (b)".data := by
  constructor
  · decide
  · decide

/-- Claim C7 (amended): `_normalize_for_match` equals the staged pipeline
lowercase → trim → strip ALL trailing periods → remove feat clauses → remove
EVERY parenthetical group → collapse whitespace → trim, applied in that
order. -/
theorem C7_normalize_eq_amended_pipeline :
    (∀ l : List Char, normList l = normalizeSpecC7Amended l) ∧
    normalize_for_match "a.." = "a" ∧
    normalize_for_match "x (a) y (b)" = "x y" :=
  ⟨fun _ => rfl, by decide, by decide⟩

/-! ## Score bounds and selection lemmas for the Matcher -/

/-- The title component is at most 100. -/
theorem titleScore_le (a b : List Char) : titleScore a b ≤ 100 := by
  unfold titleScore
  split_ifs <;> omega

/-- The title component is nonnegative. -/
theorem titleScore_nonneg (a b : List Char) : 0 ≤ titleScore a b := by
  unfold titleScore
  split_ifs <;> omega

/-- The artist component is nonnegative. -/
theorem artistScore_nonneg (a b : List Char) : 0 ≤ artistScore a b := by
  unfold artistScore
  split_ifs <;> omega

/-- The running maximum of the selection fold dominates the seed and every
element folded over. -/
theorem foldl_max_ge (f : Song → ℤ) : ∀ (l : List Song) (a : Song),
    f a ≤ f (l.foldl (fun b s => if f s > f b then s else b) a) ∧
    ∀ x ∈ l, f x ≤ f (l.foldl (fun b s => if f s > f b then s else b) a) := by
  intro l
  induction l with
  | nil => intro a; exact ⟨le_refl _, by simp⟩
  | cons c t ih =>
    intro a
    simp only [List.foldl_cons]
    obtain ⟨ih1, ih2⟩ := ih (if f c > f a then c else a)
    have hstep : f a ≤ f (if f c > f a then c else a) ∧
        f c ≤ f (if f c > f a then c else a) := by
      split_ifs with hgt
      · exact ⟨le_of_lt hgt, le_refl _⟩
      · exact ⟨le_refl _, le_of_not_lt hgt⟩
    refine ⟨le_trans hstep.1 ih1, ?_⟩
    intro x hx
    rcases List.mem_cons.1 hx with rfl | hxt
    · exact le_trans hstep.2 ih1
    · exact ih2 x hxt

/-- The selected candidate scores at least as high as every pool member. -/
theorem argmaxFirst_ge (f : Song → ℤ) (l : List Song) (b : Song)
    (hb : argmaxFirst f l = some b) : ∀ x ∈ l, f x ≤ f b := by
  cases l with
  | nil => cases hb
  | cons c t =>
    unfold argmaxFirst at hb
    injection hb with hb
    intro x hx
    rcases List.mem_cons.1 hx with rfl | hxt
    · exact hb ▸ (foldl_max_ge f t x).1
    · exact hb ▸ (foldl_max_ge f t c).2 x hxt

/-! ## Claim C2: exact artist+title matches -/

/-- Claim C2 as stated is false: with query album "x", the candidate
`{artist "a", title "t", album "y"}` matches the query `{artist "a",
title "t"}` exactly on normalized artist and title, yet the −200 album
penalty drops its score to 0 (< 160) and, though it is the only (hence
highest-scoring) candidate, it is rejected. -/
theorem C2_exact_match_rejected_on_album_mismatch :
    normList (Song.artist ⟨"1", "a", "t", "y"⟩).data =
      normList (MatchQuery.artist ⟨"a", "t", some "x"⟩).data ∧
    normList (Song.title ⟨"1", "a", "t", "y"⟩).data =
      normList (MatchQuery.title ⟨"a", "t", some "x"⟩).data ∧
    score ⟨"a", "t", some "x"⟩ ⟨"1", "a", "t", "y"⟩ = 0 ∧
    searchResult ⟨"a", "t", some "x"⟩ [⟨"1", "a", "t", "y"⟩] = none := by
  refine ⟨by decide, by decide, by decide, by decide⟩

/-- Claim C2 (amended): when the normalized artist and title match exactly
AND the album contribution is not the −200 mismatch penalty (no expected
album, or an exact/partial album match), the candidate scores at least 160
(in fact at least 200) and is accepted whenever it is the highest-scoring
candidate. -/
theorem C2_exact_match_scores_high_and_accepted (q : MatchQuery) (c : Song)
    (cands : List Song)
    (ha : normList c.artist.data = normList q.artist.data)
    (ht : normList c.title.data = normList q.title.data)
    (hal : 0 ≤ albumPart (normAlbumOf q.album) c.album.data) :
    160 ≤ score q c ∧
    (argmaxFirst (score q) cands = some c → searchResult q cands = some c) := by
  have h1 : titleScore (normList q.title.data) (normList c.title.data) = 100 := by
    unfold titleScore
    rw [if_pos ht]
  have h2 : artistScore (normList q.artist.data) (normList c.artist.data) = 100 := by
    unfold artistScore
    rw [if_pos ha]
  have hs : score q c = 200 + albumPart (normAlbumOf q.album) c.album.data := by
    unfold score
    rw [h1, h2]
    ring
  refine ⟨by omega, ?_⟩
  intro hb
  unfold searchResult
  rw [hb]
  simp only []
  rw [if_pos (by omega)]

/-- Witness: an exact artist+title match with no album filter is scored 200
and accepted. -/
theorem C2_exact_match_witness :
    (normList (Song.artist ⟨"1", "a", "t", "x"⟩).data =
       normList (MatchQuery.artist ⟨"A", "T", none⟩).data ∧
     normList (Song.title ⟨"1", "a", "t", "x"⟩).data =
       normList (MatchQuery.title ⟨"A", "T", none⟩).data ∧
     0 ≤ albumPart (normAlbumOf (MatchQuery.album ⟨"A", "T", none⟩))
       (Song.album ⟨"1", "a", "t", "x"⟩).data) ∧
    160 ≤ score ⟨"A", "T", none⟩ ⟨"1", "a", "t", "x"⟩ ∧
    (argmaxFirst (score ⟨"A", "T", none⟩) [⟨"1", "a", "t", "x"⟩] =
        some ⟨"1", "a", "t", "x"⟩ →
      searchResult ⟨"A", "T", none⟩ [⟨"1", "a", "t", "x"⟩] =
        some ⟨"1", "a", "t", "x"⟩) :=
  ⟨⟨by decide, by decide, by decide⟩,
   C2_exact_match_scores_high_and_accepted ⟨"A", "T", none⟩ ⟨"1", "a", "t", "x"⟩
     [⟨"1", "a", "t", "x"⟩] (by decide) (by decide) (by decide)⟩

/-! ## Claim C3: album mismatches never beat album matches -/

/-- Claim C3: with an active album filter, a candidate hit by the −200
mismatch penalty always scores strictly below a candidate whose album matches
exactly, as long as its artist-component advantage is at most 149 points
(any title advantage is at most 100, so −200 vs +50 always swamps it); the
penalized candidate is therefore never the selected match. -/
theorem C3_album_mismatch_never_selected (q : MatchQuery) (na : List Char)
    (s1 s2 : Song) (cands : List Song)
    (hna : normAlbumOf q.album = some na) (hne : na ≠ [])
    (h1 : albumScore na (normList s1.album.data) = -200)
    (h2 : normList s2.album.data = na)
    (hart : artistScore (normList q.artist.data) (normList s1.artist.data) ≤
            artistScore (normList q.artist.data) (normList s2.artist.data) + 149)
    (hs2 : s2 ∈ cands) :
    score q s1 < score q s2 ∧ searchResult q cands ≠ some s1 := by
  have ha1 : albumPart (normAlbumOf q.album) s1.album.data = -200 := by
    rw [hna]
    simp only [albumPart]
    rw [if_neg hne]
    exact h1
  have ha2 : albumPart (normAlbumOf q.album) s2.album.data = 50 := by
    rw [hna]
    simp only [albumPart]
    rw [if_neg hne]
    unfold albumScore
    rw [if_pos h2]
  have hlt : score q s1 < score q s2 := by
    unfold score
    rw [ha1, ha2]
    have u1 := titleScore_le (normList q.title.data) (normList s1.title.data)
    have u2 := titleScore_nonneg (normList q.title.data) (normList s2.title.data)
    omega
  refine ⟨hlt, ?_⟩
  intro hcontra
  unfold searchResult at hcontra
  cases hm : argmaxFirst (score q) cands with
  | none => rw [hm] at hcontra; cases hcontra
  | some b =>
    rw [hm] at hcontra
    simp only [] at hcontra
    by_cases hge : score q b ≥ 60
    · rw [if_pos hge] at hcontra
      injection hcontra with hcontra
      subst hcontra
      exact absurd (argmaxFirst_ge _ _ _ hm s2 hs2) (by omega)
    · rw [if_neg hge] at hcontra
      cases hcontra

/-- Witness: a same-artist, same-title pair where only the album differs —
the wrong-album candidate loses and is not selected. -/
theorem C3_album_mismatch_witness :
    (normAlbumOf (MatchQuery.album ⟨"a", "t", some "x"⟩) = some "x".data ∧
     "x".data ≠ [] ∧
     albumScore "x".data (normList (Song.album ⟨"1", "a", "t", "y"⟩).data) = -200 ∧
     normList (Song.album ⟨"2", "a", "t", "x"⟩).data = "x".data ∧
     artistScore (normList (MatchQuery.artist ⟨"a", "t", some "x"⟩).data)
         (normList (Song.artist ⟨"1", "a", "t", "y"⟩).data) ≤
       artistScore (normList (MatchQuery.artist ⟨"a", "t", some "x"⟩).data)
         (normList (Song.artist ⟨"2", "a", "t", "x"⟩).data) + 149 ∧
     (⟨"2", "a", "t", "x"⟩ : Song) ∈
       [(⟨"1", "a", "t", "y"⟩ : Song), ⟨"2", "a", "t", "x"⟩]) ∧
    score ⟨"a", "t", some "x"⟩ ⟨"1", "a", "t", "y"⟩ <
      score ⟨"a", "t", some "x"⟩ ⟨"2", "a", "t", "x"⟩ ∧
    searchResult ⟨"a", "t", some "x"⟩
        [⟨"1", "a", "t", "y"⟩, ⟨"2", "a", "t", "x"⟩] ≠
      some ⟨"1", "a", "t", "y"⟩ :=
  ⟨⟨by decide, by decide, by decide, by decide, by decide, by decide⟩,
   C3_album_mismatch_never_selected ⟨"a", "t", some "x"⟩ "x".data
     ⟨"1", "a", "t", "y"⟩ ⟨"2", "a", "t", "x"⟩
     [⟨"1", "a", "t", "y"⟩, ⟨"2", "a", "t", "x"⟩]
     (by decide) (by decide) (by decide) (by decide) (by decide) (by decide)⟩

/-- Claim C3 as stated is false: the word-overlap artist branch awards an
unbounded +30 per shared token, so a candidate with nine shared artist tokens
and a clearly differing album (100 + 270 − 200 = 170) beats a candidate with
an exactly matching album (100 + 0 + 50 = 150) and is selected — here even
with EQUAL title scores (both exact, 100), not merely a marginally better
one. -/
theorem C3_album_mismatch_can_win_via_word_overlap :
    albumScore "x".data
        (normList (Song.album ⟨"1", "i h g f e d c b a", "t", "y"⟩).data) = -200 ∧
    normList (Song.album ⟨"2", "zz", "t", "x"⟩).data = "x".data ∧
    titleScore (normList (MatchQuery.title ⟨"a b c d e f g h i", "t", some "x"⟩).data)
        (normList (Song.title ⟨"1", "i h g f e d c b a", "t", "y"⟩).data) =
      titleScore (normList (MatchQuery.title ⟨"a b c d e f g h i", "t", some "x"⟩).data)
        (normList (Song.title ⟨"2", "zz", "t", "x"⟩).data) ∧
    score ⟨"a b c d e f g h i", "t", some "x"⟩ ⟨"1", "i h g f e d c b a", "t", "y"⟩ = 170 ∧
    score ⟨"a b c d e f g h i", "t", some "x"⟩ ⟨"2", "zz", "t", "x"⟩ = 150 ∧
    searchResult ⟨"a b c d e f g h i", "t", some "x"⟩
        [⟨"2", "zz", "t", "x"⟩, ⟨"1", "i h g f e d c b a", "t", "y"⟩] =
      some ⟨"1", "i h g f e d c b a", "t", "y"⟩ := by
  refine ⟨by decide, by decide, by decide, by decide, by decide, by decide⟩

/-! ## Download History Ledger (`add_to_download_history`,
`remove_from_download_history`) -/

/-- One download-history entry, the dict written by `update_api_playlists`. -/
structure HistEntry where
  artist : String
  title : String
  album : String
  navidrome_id : String
  file_path : String
  recording_mbid : String
  downloaded_at : String
deriving DecidableEq

/-- Python `str.lower()` on a whole string. -/
def lowerStr (s : String) : String := ⟨lowerList s.data⟩

/-- The duplicate test of `add_to_download_history`: case-insensitive
equality of artist and title. -/
def keyMatchB (a t : String) (e : HistEntry) : Bool :=
  lowerStr e.artist = lowerStr a && lowerStr e.title = lowerStr t

/-- The body of `add_to_download_history`'s loop over one source's list: the
first key-matching entry gets only its `file_path` refreshed; with no match
the new entry is appended. -/
def addEntryList : List HistEntry → HistEntry → List HistEntry
  | [], ne => [ne]
  | e :: es, ne =>
    if keyMatchB ne.artist ne.title e then { e with file_path := ne.file_path } :: es
    else e :: addEntryList es ne

/-- `add_to_download_history`: upsert into the per-source list of the history
map (a missing source key starts from the empty list). -/
def add_to_download_history (h : String → List HistEntry) (src : String)
    (ne : HistEntry) : String → List HistEntry :=
  fun s => if s = src then addEntryList (h src) ne else h s

/-- `remove_from_download_history`'s filter: drop every entry whose artist
and title match case-insensitively. -/
def removeFromList (l : List HistEntry) (artist title : String) : List HistEntry :=
  l.filter (fun t =>
    ¬ (lowerStr t.artist = lowerStr artist ∧ lowerStr t.title = lowerStr title))

/-- The entries of a list that match a (artist, title) key
case-insensitively. -/
def entriesFor (a t : String) (l : List HistEntry) : List HistEntry :=
  l.filter (keyMatchB a t)

/-- An entry matches its own key. -/
theorem keyMatchB_self (a t : String) (e : HistEntry)
    (ha : lowerStr e.artist = lowerStr a) (ht : lowerStr e.title = lowerStr t) :
    keyMatchB a t e = true := by
  simp [keyMatchB, ha, ht]

/-- Refreshing `file_path` does not change an entry's key. -/
theorem keyMatchB_update (a t : String) (e : HistEntry) (x : String) :
    keyMatchB a t { e with file_path := x } = keyMatchB a t e :=
  rfl

/-- Adding to a list with no key-matching entry appends, yielding exactly one
matching entry: the new one. -/
theorem entriesFor_add_of_none (l : List HistEntry) (ne : HistEntry)
    (hnil : entriesFor ne.artist ne.title l = []) :
    entriesFor ne.artist ne.title (addEntryList l ne) = [ne] := by
  induction l with
  | nil =>
    simp [addEntryList, entriesFor, keyMatchB_self ne.artist ne.title ne rfl rfl]
  | cons e es ih =>
    rw [entriesFor, List.filter_cons] at hnil
    by_cases hpe : keyMatchB ne.artist ne.title e = true
    · rw [if_pos hpe] at hnil
      cases hnil
    · rw [if_neg hpe] at hnil
      rw [addEntryList, if_neg hpe, entriesFor, List.filter_cons,
        if_neg hpe]
      exact ih hnil

/-- Adding to a list whose key-matching entries are exactly `[E]` refreshes
only `E`'s path: the matching entries become `[E with the new path]`. -/
theorem entriesFor_add_of_one (l : List HistEntry) (ne E : HistEntry)
    (a t : String)
    (hagree : ∀ e, keyMatchB a t e = keyMatchB ne.artist ne.title e)
    (hone : entriesFor a t l = [E]) :
    entriesFor a t (addEntryList l ne) = [{ E with file_path := ne.file_path }] := by
  induction l with
  | nil => cases hone
  | cons e es ih =>
    rw [entriesFor, List.filter_cons] at hone
    by_cases hpe : keyMatchB a t e = true
    · rw [if_pos hpe] at hone
      injection hone with he hrest
      subst he
      rw [addEntryList, if_pos ((hagree e).symm.trans hpe), entriesFor,
        List.filter_cons, keyMatchB_update, if_pos hpe, hrest]
    · rw [if_neg hpe] at hone
      rw [addEntryList, if_neg (by rw [← hagree e]; exact hpe), entriesFor,
        List.filter_cons, if_neg hpe]
      exact ih hone

/-- Matching entries are the same under pointwise-equal key predicates. -/
theorem entriesFor_congr (a t a2 t2 : String) (l : List HistEntry)
    (hagree : ∀ e, keyMatchB a t e = keyMatchB a2 t2 e) :
    entriesFor a t l = entriesFor a2 t2 l := by
  induction l with
  | nil => rfl
  | cons e es ih =>
    simp only [entriesFor] at ih ⊢
    rw [List.filter_cons, List.filter_cons, hagree e, ih]

/-! ## Claim C5: Ledger Add is an upsert -/

/-- Claim C5: starting from any history whose per-source list satisfies the
Ledger invariant (at most one entry for the key), calling
`add_to_download_history` twice with the same case-insensitive (source,
artist, title) key but different paths leaves exactly one entry for that key,
carrying the second call's `file_path` and every other field of the entry
that existed after the first call; other sources are untouched. -/
theorem C5_add_twice_upserts (h : String → List HistEntry) (src : String)
    (e1 e2 : HistEntry)
    (hka : lowerStr e1.artist = lowerStr e2.artist)
    (hkt : lowerStr e1.title = lowerStr e2.title)
    (hcount : (entriesFor e2.artist e2.title (h src)).length ≤ 1) :
    ∃ E,
      entriesFor e2.artist e2.title (add_to_download_history h src e1 src) = [E] ∧
      entriesFor e2.artist e2.title
          (add_to_download_history (add_to_download_history h src e1) src e2 src) =
        [{ E with file_path := e2.file_path }] ∧
      ∀ s, s ≠ src →
        add_to_download_history (add_to_download_history h src e1) src e2 s = h s := by
  have hagree : ∀ e, keyMatchB e2.artist e2.title e = keyMatchB e1.artist e1.title e := by
    intro e
    unfold keyMatchB
    rw [hka, hkt]
  have hsrc1 : add_to_download_history h src e1 src = addEntryList (h src) e1 := by
    unfold add_to_download_history
    rw [if_pos rfl]
  have hsrc2 : add_to_download_history (add_to_download_history h src e1) src e2 src =
      addEntryList (addEntryList (h src) e1) e2 := by
    unfold add_to_download_history
    rw [if_pos rfl, if_pos rfl]
  have hother : ∀ s, s ≠ src →
      add_to_download_history (add_to_download_history h src e1) src e2 s = h s := by
    intro s hs
    unfold add_to_download_history
    rw [if_neg hs, if_neg hs]
  have hrefl : ∀ e, keyMatchB e2.artist e2.title e = keyMatchB e2.artist e2.title e :=
    fun _ => rfl
  rcases hl : entriesFor e2.artist e2.title (h src) with _ | ⟨E0, rest⟩
  · -- no pre-existing entry for the key: the first Add appends `e1`
    have hnil1 : entriesFor e1.artist e1.title (h src) = [] := by
      rw [← entriesFor_congr _ _ _ _ _ hagree, hl]
    have h1 : entriesFor e2.artist e2.title (addEntryList (h src) e1) = [e1] := by
      rw [entriesFor_congr _ _ _ _ _ hagree]
      exact entriesFor_add_of_none _ _ hnil1
    refine ⟨e1, by rw [hsrc1]; exact h1, ?_, hother⟩
    rw [hsrc2]
    exact entriesFor_add_of_one _ e2 e1 _ _ hrefl h1
  · -- exactly one pre-existing entry `E0`: the first Add refreshes its path
    have hrest : rest = [] := by
      rw [hl] at hcount
      cases rest with
      | nil => rfl
      | cons x xs => simp at hcount
    subst hrest
    have h1 : entriesFor e2.artist e2.title (addEntryList (h src) e1) =
        [{ E0 with file_path := e1.file_path }] := by
      exact entriesFor_add_of_one _ e1 E0 _ _ hagree hl
    refine ⟨{ E0 with file_path := e1.file_path }, by rw [hsrc1]; exact h1, ?_, hother⟩
    rw [hsrc2]
    exact entriesFor_add_of_one _ e2 _ _ _ hrefl h1

/-- Witness: adding the same track twice (keys differing only in case) with
paths "p1" then "p2" to an empty ledger. -/
theorem C5_add_twice_witness :
    (lowerStr (HistEntry.artist ⟨"A", "T", "al", "id", "p1", "mb", "d"⟩) =
       lowerStr (HistEntry.artist ⟨"a", "t", "al2", "id2", "p2", "mb2", "d2"⟩) ∧
     lowerStr (HistEntry.title ⟨"A", "T", "al", "id", "p1", "mb", "d"⟩) =
       lowerStr (HistEntry.title ⟨"a", "t", "al2", "id2", "p2", "mb2", "d2"⟩) ∧
     (entriesFor "a" "t" ((fun _ => []) "ListenBrainz")).length ≤ 1) ∧
    ∃ E,
      entriesFor "a" "t"
          (add_to_download_history (fun _ => []) "ListenBrainz"
            ⟨"A", "T", "al", "id", "p1", "mb", "d"⟩ "ListenBrainz") = [E] ∧
      entriesFor "a" "t"
          (add_to_download_history
            (add_to_download_history (fun _ => []) "ListenBrainz"
              ⟨"A", "T", "al", "id", "p1", "mb", "d"⟩)
            "ListenBrainz" ⟨"a", "t", "al2", "id2", "p2", "mb2", "d2"⟩
            "ListenBrainz") = [{ E with file_path := "p2" }] ∧
      ∀ s, s ≠ "ListenBrainz" →
        add_to_download_history
          (add_to_download_history (fun _ => []) "ListenBrainz"
            ⟨"A", "T", "al", "id", "p1", "mb", "d"⟩)
          "ListenBrainz" ⟨"a", "t", "al2", "id2", "p2", "mb2", "d2"⟩ s =
          (fun _ => ([] : List HistEntry)) s :=
  ⟨⟨by decide, by decide, by decide⟩,
   C5_add_twice_upserts (fun _ => []) "ListenBrainz"
     ⟨"A", "T", "al", "id", "p1", "mb", "d"⟩
     ⟨"a", "t", "al2", "id2", "p2", "mb2", "d2"⟩
     (by decide) (by decide) (by decide)⟩

/-! ## Protection Evaluator (`_check_song_protection`, SQLite path) -/

/-- One row of Navidrome's `annotation` table for the track: rating may be
NULL, and either a starred flag or a non-null `starred_at` marks a
favorite. -/
structure AnnotationRow where
  user_id : String
  rating : Option ℕ
  starred : Bool
  starred_at : Bool
deriving DecidableEq

/-- One playlist-membership row for the track. -/
structure PlaylistRow where
  name : String
  owner_id : String
deriving DecidableEq

/-- The result dict of `_check_song_protection`. -/
structure ProtectionResult where
  protectedFlag : Bool
  reasons : List String
  max_rating : ℕ
deriving DecidableEq

/-- This engine's own recommendation playlists, exempt from the playlist
protection rule. -/
def recommendation_playlist_names : List String :=
  ["listenbrainz recommendations", "last.fm recommendations", "llm recommendations"]

/-- `if rating >= 4:` — record protection with a reason. -/
def annRateStep (r : ProtectionResult) (row : AnnotationRow) : ProtectionResult :=
  if 4 ≤ row.rating.getD 0 then
    { r with protectedFlag := true,
             reasons := r.reasons ++
               ["rated " ++ toString (row.rating.getD 0) ++ "/5 by user " ++
                 row.user_id.take 8 ++ "..."] }
  else r

/-- `result['max_rating'] = max(result['max_rating'], rating)`. -/
def annMaxStep (r : ProtectionResult) (row : AnnotationRow) : ProtectionResult :=
  { r with max_rating := max r.max_rating (row.rating.getD 0) }

/-- `if starred or starred_at:` — protect and bump the maximum to 5. -/
def annStarStep (r : ProtectionResult) (row : AnnotationRow) : ProtectionResult :=
  if row.starred || row.starred_at then
    { r with protectedFlag := true,
             reasons := r.reasons ++
               ["starred/favorited by user " ++ row.user_id.take 8 ++ "..."],
             max_rating := max r.max_rating 5 }
  else r

/-- The body of the annotation loop of `_check_song_protection`. -/
def applyAnnRow (r : ProtectionResult) (row : AnnotationRow) : ProtectionResult :=
  annStarStep (annMaxStep (annRateStep r row) row) row

/-- The body of the playlist loop: membership in any playlist that is not a
recommendation playlist protects the track. -/
def applyPlaylist (r : ProtectionResult) (row : PlaylistRow) : ProtectionResult :=
  if lowerStr row.name ∈ recommendation_playlist_names then r
  else
    { r with protectedFlag := true,
             reasons := r.reasons ++
               ["in playlist " ++ row.name ++ " (owner " ++
                 row.owner_id.take 8 ++ "...)"] }

/-- `_check_song_protection` on the SQLite (all-accounts) path: fold the
annotation rows, then the playlist rows, over the initial result. -/
def checkSongProtectionDb (annRows : List AnnotationRow)
    (plRows : List PlaylistRow) : ProtectionResult :=
  plRows.foldl applyPlaylist (annRows.foldl applyAnnRow ⟨false, [], 0⟩)

/-- The annotation step never clears the protected flag. -/
theorem applyAnnRow_protected_mono (r : ProtectionResult) (row : AnnotationRow)
    (h : r.protectedFlag = true) : (applyAnnRow r row).protectedFlag = true := by
  unfold applyAnnRow annStarStep annMaxStep annRateStep
  split_ifs <;> simp_all

/-- A rating of at least 4 sets the protected flag. -/
theorem applyAnnRow_protected_of_rated (r : ProtectionResult) (row : AnnotationRow)
    (h4 : 4 ≤ row.rating.getD 0) : (applyAnnRow r row).protectedFlag = true := by
  unfold applyAnnRow annStarStep annMaxStep annRateStep
  rw [if_pos h4]
  split_ifs <;> simp

/-- The annotation step never decreases the maximum rating. -/
theorem applyAnnRow_max_mono (r : ProtectionResult) (row : AnnotationRow) :
    r.max_rating ≤ (applyAnnRow r row).max_rating := by
  unfold applyAnnRow annStarStep annMaxStep annRateStep
  split_ifs <;> simp

/-- After processing a row, the maximum rating dominates that row's rating. -/
theorem applyAnnRow_max_ge_rating (r : ProtectionResult) (row : AnnotationRow) :
    row.rating.getD 0 ≤ (applyAnnRow r row).max_rating := by
  unfold applyAnnRow annStarStep annMaxStep annRateStep
  split_ifs <;> simp

/-- The maximum rating stays at most 5 when every input rating is. -/
theorem applyAnnRow_max_le (r : ProtectionResult) (row : AnnotationRow)
    (h : r.max_rating ≤ 5) (hb : row.rating.getD 0 ≤ 5) :
    (applyAnnRow r row).max_rating ≤ 5 := by
  unfold applyAnnRow annStarStep annMaxStep annRateStep
  split_ifs <;> simp <;> omega

/-- Folding annotations preserves an already-set protected flag. -/
theorem foldl_ann_protected_mono : ∀ (l : List AnnotationRow) (r : ProtectionResult),
    r.protectedFlag = true → (l.foldl applyAnnRow r).protectedFlag = true := by
  intro l
  induction l with
  | nil => intro r h; exact h
  | cons row t ih =>
    intro r h
    rw [List.foldl_cons]
    exact ih _ (applyAnnRow_protected_mono r row h)

/-- Any row rated at least 4 makes the annotation fold protected. -/
theorem foldl_ann_protected_of_mem : ∀ (l : List AnnotationRow) (r : ProtectionResult)
    (row : AnnotationRow), row ∈ l → 4 ≤ row.rating.getD 0 →
    (l.foldl applyAnnRow r).protectedFlag = true := by
  intro l
  induction l with
  | nil => intro r row hrow; cases hrow
  | cons x t ih =>
    intro r row hrow h4
    rw [List.foldl_cons]
    rcases List.mem_cons.1 hrow with rfl | hmem
    · exact foldl_ann_protected_mono t _ (applyAnnRow_protected_of_rated r row h4)
    · exact ih _ row hmem h4

/-- Folding annotations never decreases the maximum rating. -/
theorem foldl_ann_max_mono : ∀ (l : List AnnotationRow) (r : ProtectionResult),
    r.max_rating ≤ (l.foldl applyAnnRow r).max_rating := by
  intro l
  induction l with
  | nil => intro r; exact le_refl _
  | cons row t ih =>
    intro r
    rw [List.foldl_cons]
    exact le_trans (applyAnnRow_max_mono r row) (ih _)

/-- The annotation fold's maximum dominates every member's rating. -/
theorem foldl_ann_max_ge : ∀ (l : List AnnotationRow) (r : ProtectionResult)
    (row : AnnotationRow), row ∈ l →
    row.rating.getD 0 ≤ (l.foldl applyAnnRow r).max_rating := by
  intro l
  induction l with
  | nil => intro r row hrow; cases hrow
  | cons x t ih =>
    intro r row hrow
    rw [List.foldl_cons]
    rcases List.mem_cons.1 hrow with rfl | hmem
    · exact le_trans (applyAnnRow_max_ge_rating r row) (foldl_ann_max_mono t _)
    · exact ih _ row hmem

/-- The annotation fold's maximum is at most 5 when all ratings are. -/
theorem foldl_ann_max_le : ∀ (l : List AnnotationRow) (r : ProtectionResult),
    r.max_rating ≤ 5 → (∀ x ∈ l, x.rating.getD 0 ≤ 5) →
    (l.foldl applyAnnRow r).max_rating ≤ 5 := by
  intro l
  induction l with
  | nil => intro r h _; exact h
  | cons x t ih =>
    intro r h hb
    rw [List.foldl_cons]
    exact ih _ (applyAnnRow_max_le r x h (hb x (List.mem_cons_self x t)))
      (fun y hy => hb y (List.mem_cons_of_mem x hy))

/-- The playlist step never touches the maximum rating. -/
theorem applyPlaylist_max (r : ProtectionResult) (row : PlaylistRow) :
    (applyPlaylist r row).max_rating = r.max_rating := by
  unfold applyPlaylist
  split_ifs <;> rfl

/-- The playlist step never clears the protected flag. -/
theorem applyPlaylist_protected_mono (r : ProtectionResult) (row : PlaylistRow)
    (h : r.protectedFlag = true) : (applyPlaylist r row).protectedFlag = true := by
  unfold applyPlaylist
  split_ifs <;> simp_all

/-- The playlist fold keeps the maximum rating and a set protected flag. -/
theorem foldl_pl_preserves : ∀ (l : List PlaylistRow) (r : ProtectionResult),
    (l.foldl applyPlaylist r).max_rating = r.max_rating ∧
    (r.protectedFlag = true → (l.foldl applyPlaylist r).protectedFlag = true) := by
  intro l
  induction l with
  | nil => intro r; exact ⟨rfl, fun h => h⟩
  | cons row t ih =>
    intro r
    rw [List.foldl_cons]
    refine ⟨(ih _).1.trans (applyPlaylist_max r row), fun h => ?_⟩
    exact (ih _).2 (applyPlaylist_protected_mono r row h)

/-! ## Claim C8: a 5-star rating from any account protects -/

/-- Claim C8: if any one account's annotation row carries rating 5 and all
ratings are in the 0..5 range of the data model, the Protection Evaluator
(all-accounts SQLite path) reports the track protected with max_rating 5,
whatever the other accounts' rows contain. -/
theorem C8_rating5_protects (annRows : List AnnotationRow)
    (plRows : List PlaylistRow) (row : AnnotationRow)
    (hrow : row ∈ annRows) (h5 : row.rating = some 5)
    (hb : ∀ x ∈ annRows, x.rating.getD 0 ≤ 5) :
    (checkSongProtectionDb annRows plRows).protectedFlag = true ∧
    (checkSongProtectionDb annRows plRows).max_rating = 5 := by
  have hg : row.rating.getD 0 = 5 := by rw [h5]; rfl
  unfold checkSongProtectionDb
  obtain ⟨hmax, hmono⟩ := foldl_pl_preserves plRows (annRows.foldl applyAnnRow ⟨false, [], 0⟩)
  constructor
  · exact hmono (foldl_ann_protected_of_mem annRows _ row hrow (by omega))
  · rw [hmax]
    have hge := foldl_ann_max_ge annRows ⟨false, [], 0⟩ row hrow
    have hle := foldl_ann_max_le annRows ⟨false, [], 0⟩ (by simp) hb
    omega

/-- Witness: two accounts, one rating 2 and one rating 5, plus membership in
a user playlist — protected with max_rating 5. -/
theorem C8_rating5_witness :
    ((⟨"user-2", some 5, false, false⟩ : AnnotationRow) ∈
       [(⟨"user-1", some 2, false, false⟩ : AnnotationRow),
        ⟨"user-2", some 5, false, false⟩] ∧
     (AnnotationRow.rating ⟨"user-2", some 5, false, false⟩ = some 5) ∧
     (∀ x ∈ [(⟨"user-1", some 2, false, false⟩ : AnnotationRow),
        ⟨"user-2", some 5, false, false⟩], x.rating.getD 0 ≤ 5)) ∧
    (checkSongProtectionDb
        [⟨"user-1", some 2, false, false⟩, ⟨"user-2", some 5, false, false⟩]
        [⟨"My Mix", "owner-1"⟩]).protectedFlag = true ∧
    (checkSongProtectionDb
        [⟨"user-1", some 2, false, false⟩, ⟨"user-2", some 5, false, false⟩]
        [⟨"My Mix", "owner-1"⟩]).max_rating = 5 :=
  ⟨⟨by decide, by decide, by decide⟩,
   C8_rating5_protects
     [⟨"user-1", some 2, false, false⟩, ⟨"user-2", some 5, false, false⟩]
     [⟨"My Mix", "owner-1"⟩] ⟨"user-2", some 5, false, false⟩
     (by decide) (by decide) (by decide)⟩

/-! ## Cleanup passes (`process_api_cleanup`, `process_debug_cleanup`) -/

/-- The library-side oracles a cleanup pass consults for a tracked entry:
whether `_get_song_details(nd_id)` finds the song, whether
`_check_song_protection` reports it protected, whether
`_find_actual_song_path` resolves to an existing file, and whether
`_delete_song` succeeds. -/
structure CleanupEnv where
  existsInNd : HistEntry → Bool
  isProt : HistEntry → Bool
  fileResolved : HistEntry → Bool
  deleteSucceeds : HistEntry → Bool

/-- `song_details is None` test of `process_api_cleanup`: details are only
fetched when `nd_id` is truthy, and may still come back `None`. -/
def apiLookupOk (env : CleanupEnv) (t : HistEntry) : Bool :=
  if t.navidrome_id = "" then false else env.existsInNd t

/-- The `tracks_to_remove` accumulator of `process_api_cleanup`: the
not-found branch, the protected branch AND the not-protected branch
(whether or not the file was found or the delete succeeded) all append the
track. -/
def apiTracksToRemove (env : CleanupEnv) : List HistEntry → List HistEntry
  | [] => []
  | t :: ts =>
    (if ¬ apiLookupOk env t then [t]
     else if env.isProt t then [t]
     else [t]) ++ apiTracksToRemove env ts

/-- The `tracks_to_keep_ids` accumulator of `process_api_cleanup`: only
protected tracks with a truthy `navidrome_id` keep their playlist spot. -/
def apiKeepIds (env : CleanupEnv) : List HistEntry → List String
  | [] => []
  | t :: ts =>
    (if ¬ apiLookupOk env t then []
     else if env.isProt t then
       (if t.navidrome_id = "" then [] else [t.navidrome_id])
     else []) ++ apiKeepIds env ts

/-- `remove_from_download_history` applied for each processed track, as the
final loop of `process_api_cleanup` does. -/
def applyRemovals (l : List HistEntry) (rem : List HistEntry) : List HistEntry :=
  rem.foldl (fun acc r => removeFromList acc r.artist r.title) l

/-- A source's history list after `process_api_cleanup` processed it. -/
def apiCleanupHistoryAfter (env : CleanupEnv) (tracks : List HistEntry) :
    List HistEntry :=
  applyRemovals tracks (apiTracksToRemove env tracks)

/-- The playlist rebuild of `process_api_cleanup`: keep a current playlist
entry iff it is not tracked by us, or it is tracked and explicitly kept. -/
def apiNewPlaylistIds (env : CleanupEnv) (tracks : List HistEntry)
    (playlistSongs : List String) : List String :=
  playlistSongs.filter (fun ps =>
    ps ∉ tracks.map HistEntry.navidrome_id ∨ ps ∈ apiKeepIds env tracks)

/-- Whether `process_debug_cleanup` keeps a tracked entry in
`remaining_history`: entries without an id, failed deletes and
file-not-found entries are retained; found-and-deleted, protected and
gone-from-library entries are dropped. -/
def debugKeepInHistory (env : CleanupEnv) (t : HistEntry) : Bool :=
  if t.navidrome_id = "" then true
  else if ¬ env.existsInNd t then false
  else if env.isProt t then false
  else if env.fileResolved t then ¬ env.deleteSucceeds t
  else true

/-- `remaining_tracks` of one source after step 1 of
`process_debug_cleanup`. -/
def debugCleanupRemaining (env : CleanupEnv) : List HistEntry → List HistEntry
  | [] => []
  | t :: ts =>
    (if debugKeepInHistory env t then [t] else []) ++ debugCleanupRemaining env ts

/-! ## Claim C1: retention of entries whose file cannot be located -/

/-- Claim C1 as stated is false for `process_api_cleanup`: a tracked,
unprotected entry that still exists in the library but whose file cannot be
located is nevertheless appended to `tracks_to_remove` and removed from the
history — afterwards the source's history is empty, not retaining the
entry. -/
theorem C1_api_cleanup_drops_unresolved_entry :
    (CleanupEnv.isProt ⟨fun _ => true, fun _ => false, fun _ => false, fun _ => false⟩)
        ⟨"Artist", "Title", "Album", "nd1", "music/x.mp3", "", "2024"⟩ = false ∧
    (CleanupEnv.fileResolved ⟨fun _ => true, fun _ => false, fun _ => false, fun _ => false⟩)
        ⟨"Artist", "Title", "Album", "nd1", "music/x.mp3", "", "2024"⟩ = false ∧
    apiLookupOk ⟨fun _ => true, fun _ => false, fun _ => false, fun _ => false⟩
        ⟨"Artist", "Title", "Album", "nd1", "music/x.mp3", "", "2024"⟩ = true ∧
    apiCleanupHistoryAfter ⟨fun _ => true, fun _ => false, fun _ => false, fun _ => false⟩
        [⟨"Artist", "Title", "Album", "nd1", "music/x.mp3", "", "2024"⟩] = [] := by
  refine ⟨rfl, rfl, by decide, by decide⟩

/-- An entry that exists in the library, is not protected, and whose file
cannot be resolved is retained by the debug cleanup. -/
theorem debugKeep_of_unresolved (env : CleanupEnv) (t : HistEntry)
    (he : env.existsInNd t = true) (hp : env.isProt t = false)
    (hf : env.fileResolved t = false) : debugKeepInHistory env t = true := by
  unfold debugKeepInHistory
  split_ifs <;> simp_all

/-- Claim C1 (amended): only `process_debug_cleanup` retains a non-protected
entry whose file cannot be located (while the song still exists in the
library) — it is still in the remaining history after the pass;
`process_api_cleanup` instead drops every processed entry, including
file-not-found ones (see the counterexample). -/
theorem C1_debug_cleanup_retains_unresolved (env : CleanupEnv)
    (tracks : List HistEntry) (t : HistEntry) (ht : t ∈ tracks)
    (he : env.existsInNd t = true) (hp : env.isProt t = false)
    (hf : env.fileResolved t = false) :
    t ∈ debugCleanupRemaining env tracks := by
  induction tracks with
  | nil => cases ht
  | cons x ts ih =>
    unfold debugCleanupRemaining
    rcases List.mem_cons.1 ht with rfl | hmem
    · rw [debugKeep_of_unresolved env t he hp hf]
      simp
    · exact List.mem_append_right _ (ih hmem)

/-- Witness: a file-not-found entry among two tracked entries survives the
debug cleanup pass. -/
theorem C1_debug_cleanup_witness :
    ((⟨"A2", "T2", "al", "nd2", "music/gone.mp3", "", "2024"⟩ : HistEntry) ∈
       [(⟨"A1", "T1", "al", "nd1", "music/ok.mp3", "", "2024"⟩ : HistEntry),
        ⟨"A2", "T2", "al", "nd2", "music/gone.mp3", "", "2024"⟩] ∧
     (CleanupEnv.existsInNd
         ⟨fun _ => true, fun _ => false, fun t => t.navidrome_id = "nd1", fun _ => true⟩)
       ⟨"A2", "T2", "al", "nd2", "music/gone.mp3", "", "2024"⟩ = true ∧
     (CleanupEnv.isProt
         ⟨fun _ => true, fun _ => false, fun t => t.navidrome_id = "nd1", fun _ => true⟩)
       ⟨"A2", "T2", "al", "nd2", "music/gone.mp3", "", "2024"⟩ = false ∧
     (CleanupEnv.fileResolved
         ⟨fun _ => true, fun _ => false, fun t => t.navidrome_id = "nd1", fun _ => true⟩)
       ⟨"A2", "T2", "al", "nd2", "music/gone.mp3", "", "2024"⟩ = false) ∧
    (⟨"A2", "T2", "al", "nd2", "music/gone.mp3", "", "2024"⟩ : HistEntry) ∈
      debugCleanupRemaining
        ⟨fun _ => true, fun _ => false, fun t => t.navidrome_id = "nd1", fun _ => true⟩
        [⟨"A1", "T1", "al", "nd1", "music/ok.mp3", "", "2024"⟩,
         ⟨"A2", "T2", "al", "nd2", "music/gone.mp3", "", "2024"⟩] :=
  ⟨⟨by decide, by decide, by decide, by decide⟩,
   C1_debug_cleanup_retains_unresolved
     ⟨fun _ => true, fun _ => false, fun t => t.navidrome_id = "nd1", fun _ => true⟩
     [⟨"A1", "T1", "al", "nd1", "music/ok.mp3", "", "2024"⟩,
      ⟨"A2", "T2", "al", "nd2", "music/gone.mp3", "", "2024"⟩]
     ⟨"A2", "T2", "al", "nd2", "music/gone.mp3", "", "2024"⟩
     (by decide) (by decide) (by decide) (by decide)⟩

/-! ## Claim C4: the API cleanup's playlist rebuild keeps untracked entries -/

/-- Claim C4: during `process_api_cleanup`, every current playlist entry whose
id is not among the source's tracked `navidrome_id`s stays in the rebuilt
playlist, and an entry can only be removed if it is tracked and not among the
explicitly kept (protected) ids. -/
theorem C4_untracked_playlist_entries_kept (env : CleanupEnv)
    (tracks : List HistEntry) (playlistSongs : List String) (ps : String)
    (hin : ps ∈ playlistSongs) :
    (ps ∉ tracks.map HistEntry.navidrome_id →
      ps ∈ apiNewPlaylistIds env tracks playlistSongs) ∧
    (ps ∉ apiNewPlaylistIds env tracks playlistSongs →
      ps ∈ tracks.map HistEntry.navidrome_id ∧ ps ∉ apiKeepIds env tracks) := by
  constructor
  · intro hnt
    exact List.mem_filter.2 ⟨hin, by simp [hnt]⟩
  · intro hnot
    by_cases h1 : ps ∈ tracks.map HistEntry.navidrome_id
    · by_cases h2 : ps ∈ apiKeepIds env tracks
      · exact absurd (List.mem_filter.2 ⟨hin, by simp [h2]⟩) hnot
      · exact ⟨h1, h2⟩
    · exact absurd (List.mem_filter.2 ⟨hin, by simp [h1]⟩) hnot

/-- Witness: a user-added playlist id `"u1"` that is not tracked survives the
playlist rebuild of the API cleanup. -/
theorem C4_untracked_kept_witness :
    ("u1" ∈ ["u1", "nd1"]) ∧
    ("u1" ∉ List.map HistEntry.navidrome_id
        [(⟨"A1", "T1", "al", "nd1", "p", "", "2024"⟩ : HistEntry)] →
      "u1" ∈ apiNewPlaylistIds
        ⟨fun _ => true, fun _ => false, fun _ => true, fun _ => true⟩
        [⟨"A1", "T1", "al", "nd1", "p", "", "2024"⟩] ["u1", "nd1"]) ∧
    ("u1" ∉ apiNewPlaylistIds
        ⟨fun _ => true, fun _ => false, fun _ => true, fun _ => true⟩
        [⟨"A1", "T1", "al", "nd1", "p", "", "2024"⟩] ["u1", "nd1"] →
      "u1" ∈ List.map HistEntry.navidrome_id
          [(⟨"A1", "T1", "al", "nd1", "p", "", "2024"⟩ : HistEntry)] ∧
      "u1" ∉ apiKeepIds
        ⟨fun _ => true, fun _ => false, fun _ => true, fun _ => true⟩
        [⟨"A1", "T1", "al", "nd1", "p", "", "2024"⟩]) :=
  ⟨by decide,
   (C4_untracked_playlist_entries_kept
     ⟨fun _ => true, fun _ => false, fun _ => true, fun _ => true⟩
     [⟨"A1", "T1", "al", "nd1", "p", "", "2024"⟩] ["u1", "nd1"] "u1" (by decide)).1,
   (C4_untracked_playlist_entries_kept
     ⟨fun _ => true, fun _ => false, fun _ => true, fun _ => true⟩
     [⟨"A1", "T1", "al", "nd1", "p", "", "2024"⟩] ["u1", "nd1"] "u1" (by decide)).2⟩

/-! ## Download pass playlist sync (`update_api_playlists`) -/

/-- The `song_ids` accumulator of `update_api_playlists`: one lookup result
per recommended song, appended only when a library track was found. -/
def collectSongIds : List (Option String) → List String
  | [] => []
  | some i :: r => i :: collectSongIds r
  | none :: r => collectSongIds r

/-- Navidrome's playlists, keyed by name, as visible to this code. -/
def PlaylistStore : Type := List (String × List String)

/-- `_update_playlist` / `_create_playlist` combined: replace the contents of
the first playlist with the given name, or create one. -/
def setPlaylistContents : PlaylistStore → String → List String → PlaylistStore
  | [], name, ids => [(name, ids)]
  | (n, old) :: rest, name, ids =>
    if n = name then (n, ids) :: rest
    else (n, old) :: setPlaylistContents rest name ids

/-- The per-playlist tail of `update_api_playlists`: `if not song_ids:
continue` — otherwise find-or-create and set the contents. -/
def updateApiPlaylistForSource (store : PlaylistStore) (name : String)
    (lookups : List (Option String)) : PlaylistStore :=
  if collectSongIds lookups = [] then store
  else setPlaylistContents store name (collectSongIds lookups)

/-! ## Claim C10: a source with no resolvable tracks is skipped -/

/-- Claim C10: when every recommended track of a source fails to resolve to a
library id, the download pass leaves the playlist store untouched — in
particular it never replaces a playlist with an empty membership set. -/
theorem C10_unresolved_source_skipped (store : PlaylistStore) (name : String)
    (lookups : List (Option String)) (h : ∀ x ∈ lookups, x = none) :
    updateApiPlaylistForSource store name lookups = store := by
  have hz : collectSongIds lookups = [] := by
    induction lookups with
    | nil => rfl
    | cons x r ih =>
      have hx := h x (List.mem_cons_self x r)
      subst hx
      exact ih (fun y hy => h y (List.mem_cons_of_mem none hy))
  unfold updateApiPlaylistForSource
  rw [if_pos hz]

/-- Witness: two failed lookups leave an existing two-track playlist
unchanged. -/
theorem C10_unresolved_source_witness :
    (∀ x ∈ [(none : Option String), none], x = none) ∧
    updateApiPlaylistForSource [("ListenBrainz Weekly", ["a", "b"])]
        "ListenBrainz Weekly" [none, none] =
      [("ListenBrainz Weekly", ["a", "b"])] :=
  ⟨by decide,
   C10_unresolved_source_skipped [("ListenBrainz Weekly", ["a", "b"])]
     "ListenBrainz Weekly" [none, none] (by decide)⟩

/-! ## Playlist monitor (`playlist_monitor.py`) -/

/-- One monitored-playlist record, as stored in
`monitored_playlists.json`. -/
structure MonEntry where
  id : String
  url : String
  name : String
  platform : String
  username : String
  poll_interval_hours : ℕ
  enabled : Bool
  added_at : String
  last_synced : Option String
  last_track_count : ℕ
deriving DecidableEq

/-- `mark_synced(playlist_id, track_count)`: the first record with the id
gets `last_synced` set to now, and `last_track_count` only when a count was
passed (`if track_count is not None`). -/
def markSynced : List MonEntry → String → String → Option ℕ → List MonEntry
  | [], _, _, _ => []
  | p :: ps, pid, now, tc =>
    if p.id = pid then
      { p with last_synced := some now,
               last_track_count :=
                 match tc with
                 | some c => c
                 | none => p.last_track_count } :: ps
    else p :: markSynced ps pid now tc

/-- The `track_count` computed by `_sync_playlist`: `None` when
`extract_playlist_tracks` raised, and `len(tracks)` only when the extracted
list is truthy (non-empty). -/
def syncTrackCount (extraction : Option (List String)) : Option ℕ :=
  match extraction with
  | some ts => if 0 < ts.length then some ts.length else none
  | none => none

/-- `_sync_playlist`: whatever the download did (the `try` body may fail),
`mark_synced(entry['id'], track_count)` runs at the end. -/
def syncPlaylistRun (pls : List MonEntry) (e : MonEntry) (now : String)
    (extraction : Option (List String)) : List MonEntry :=
  markSynced pls e.id now (syncTrackCount extraction)

/-! ## Claim C9: fields updated after every sync attempt -/

/-- Claim C9 as stated is false: when the sync attempt fails before the track
list could be extracted (`extraction = none`), `mark_synced` receives
`track_count=None` and leaves `last_track_count` at its stale value 7 —
only `last_synced` is updated. -/
theorem C9_failed_sync_keeps_stale_track_count :
    syncPlaylistRun
        [⟨"pl-1", "u", "n", "spotify", "user", 24, true, "t0", none, 7⟩]
        ⟨"pl-1", "u", "n", "spotify", "user", 24, true, "t0", none, 7⟩
        "2026-01-01T00:00:00" none =
      [⟨"pl-1", "u", "n", "spotify", "user", 24, true, "t0",
        some "2026-01-01T00:00:00", 7⟩] := by
  decide

/-- Claim C9 (amended): after every sync attempt — including one that fails
partway — `last_synced` is unconditionally set to the current time before the
poller moves on, but `last_track_count` is refreshed only when the track list
was successfully extracted and non-empty; otherwise it keeps its previous
value. -/
theorem C9_mark_synced_after_every_attempt (l1 l2 : List MonEntry)
    (p : MonEntry) (now : String) (extraction : Option (List String))
    (hfirst : ∀ q ∈ l1, q.id ≠ p.id) :
    syncPlaylistRun (l1 ++ p :: l2) p now extraction =
      l1 ++ { p with last_synced := some now,
                     last_track_count :=
                       match syncTrackCount extraction with
                       | some c => c
                       | none => p.last_track_count } :: l2 := by
  unfold syncPlaylistRun
  induction l1 with
  | nil =>
    rw [List.nil_append, List.nil_append]
    show markSynced (p :: l2) p.id now (syncTrackCount extraction) = _
    unfold markSynced
    rw [if_pos rfl]
  | cons q qs ih =>
    rw [List.cons_append, List.cons_append]
    show markSynced (q :: (qs ++ p :: l2)) p.id now (syncTrackCount extraction) = _
    unfold markSynced
    rw [if_neg (hfirst q (List.mem_cons_self q qs))]
    rw [ih (fun x hx => hfirst x (List.mem_cons_of_mem q hx))]

/-- Witness: a successful extraction of two tracks updates both fields of the
second record. -/
theorem C9_mark_synced_witness :
    (∀ q ∈ [(⟨"pl-0", "u0", "n0", "spotify", "user", 24, true, "t0",
        none, 0⟩ : MonEntry)],
      q.id ≠ MonEntry.id ⟨"pl-1", "u", "n", "spotify", "user", 24, true, "t0",
        none, 7⟩) ∧
    syncPlaylistRun
        ([⟨"pl-0", "u0", "n0", "spotify", "user", 24, true, "t0", none, 0⟩] ++
          ⟨"pl-1", "u", "n", "spotify", "user", 24, true, "t0", none, 7⟩ :: [])
        ⟨"pl-1", "u", "n", "spotify", "user", 24, true, "t0", none, 7⟩
        "2026-02-02T00:00:00" (some ["a", "b"]) =
      [⟨"pl-0", "u0", "n0", "spotify", "user", 24, true, "t0", none, 0⟩] ++
        { (⟨"pl-1", "u", "n", "spotify", "user", 24, true, "t0", none, 7⟩ : MonEntry) with
            last_synced := some "2026-02-02T00:00:00",
            last_track_count :=
              match syncTrackCount (some ["a", "b"]) with
              | some c => c
              | none => 7 } :: [] :=
  ⟨by decide,
   C9_mark_synced_after_every_attempt
     [⟨"pl-0", "u0", "n0", "spotify", "user", 24, true, "t0", none, 0⟩] []
     ⟨"pl-1", "u", "n", "spotify", "user", 24, true, "t0", none, 7⟩
     "2026-02-02T00:00:00" (some ["a", "b"]) (by decide)⟩
